import Mathlib

/-!
# Verification of the eventsourced runtime core

A shallow embedding of the eventsourced library (entity runtime, Postgres and
NATS event-log adapters, NATS snapshot store) together with proofs about the
properties its specification states.

Machine integers (`u64`, `i64`) are modelled as `Nat`; all sequence numbers in
the code are `NonZeroU64` values far below overflow, and no claim involves
wrap-around, so arithmetic is exact. Fallible operations return `Except`.
Asynchronous streams are modelled as the lists of items they deliver.
-/

namespace Eventsourced

/-! ## Postgres event-log adapter (src/eventsourced-postgres/src/evt_log.rs)

The `evts` table has schema
`evts(seq_no BIGINT, type TEXT, id ..., evt BYTEA, PRIMARY KEY (id, seq_no))`;
a row is modelled as `PgRow`, the table as a `List PgRow` (insertion order).
The database's primary-key check is the only thing `persist` relies on: an
`INSERT` fails exactly when a row with the same `(id, seq_no)` already exists.
-/

/-- One row of the `evts` table. -/
structure PgRow (I E : Type) where
  seqNo : Nat
  typeName : String
  id : I
  evt : E
deriving DecidableEq, Repr

/-- Errors surfaced by the modelled Postgres adapter. `uniqueViolation` stands
for the `tokio_postgres` error produced when the `INSERT` hits the
`(id, seq_no)` primary key (wrapped by the adapter as a generic query error). -/
inductive PgError where
  | uniqueViolation
deriving DecidableEq, Repr

namespace PostgresEvtLog

/-- `PostgresEvtLog::persist` (evt_log.rs lines 193-222): computes
`seq_no = last_seq_no.unwrap_or_default() + 1`, then runs
`INSERT INTO evts (seq_no, type, id, evt) VALUES (...) RETURNING seq_no`.
The insert fails iff a row with the same `(id, seq_no)` exists (primary key);
on success the inserted `seq_no` is returned. -/
def persist [DecidableEq I] (table : List (PgRow I E)) (evt : E) (typeName : String)
    (id : I) (lastSeqNo : Option Nat) : Except PgError (Nat × List (PgRow I E)) :=
  let seqNo := lastSeqNo.getD 0 + 1
  if table.any fun r => decide (r.id = id) && decide (r.seqNo = seqNo) then
    .error .uniqueViolation
  else
    .ok (seqNo, table ++ [⟨seqNo, typeName, id, evt⟩])

/-- The sequence numbers stored for an id, in row order:
the column selected by `SELECT MAX(seq_no) FROM evts WHERE id = $1`. -/
def pgSeqNos [DecidableEq I] (table : List (PgRow I E)) (id : I) : List Nat :=
  (table.filter fun r => decide (r.id = id)).map PgRow.seqNo

/-- `PostgresEvtLog::last_seq_no` (evt_log.rs lines 225-245):
`SELECT MAX(seq_no) FROM evts WHERE id = $1`, `None` when no rows exist. -/
def last_seq_no [DecidableEq I] (table : List (PgRow I E)) (id : I) : Option Nat :=
  (pgSeqNos table id).max?

/-- The cursor advance in `PostgresEvtLog::evts_by_id` (evt_log.rs line 275):
after the inner query stream yields an event with sequence number `seqNo`,
the code runs `current_seq_no += seq_no.get() as i64 + 1`. -/
def evtsByIdCursorAdvance (current seqNo : Nat) : Nat :=
  current + (seqNo + 1)

/-- The cursor advance in `PostgresEvtLog::evts_by_type` (evt_log.rs line 328):
`current_seq_no = seq_no.get() as i64 + 1`. -/
def evtsByTypeCursorAdvance (current seqNo : Nat) : Nat :=
  let _ := current
  seqNo + 1

/-- Cursor position after one inner query of `evts_by_id` has delivered the
batch of events with the given sequence numbers, starting from `current`:
each delivered event runs `evtsByIdCursorAdvance`. -/
def cursorAfterBatch (current : Nat) (seqNos : List Nat) : Nat :=
  seqNos.foldl evtsByIdCursorAdvance current

/-- One polling round of `evts_by_id`: the inner query
`SELECT seq_no, evt FROM evts WHERE id = $1 AND seq_no >= $2` returns the rows
with `seqNo ≥ current`; the round yields them and moves the cursor with
`evtsByIdCursorAdvance` per event. -/
def evtsByIdRound (rows : List (Nat × E)) (current : Nat) :
    List (Nat × E) × Nat :=
  let batch := rows.filter fun p => decide (current ≤ p.1)
  (batch, cursorAfterBatch current (batch.map Prod.fst))

/-- Two polling rounds of `evts_by_id` starting at `fromSeqNo`: the first round
queries `rows`; between the rounds `extraRows` are appended to the table; the
second round queries the grown table from the advanced cursor. Returns all
events the stream has emitted. -/
def evtsByIdTwoRounds (rows extraRows : List (Nat × E)) (fromSeqNo : Nat) :
    List (Nat × E) :=
  let (batch, cursor) := evtsByIdRound rows fromSeqNo
  let (batch2, _) := evtsByIdRound (rows ++ extraRows) cursor
  batch ++ batch2

end PostgresEvtLog

/-! ## NATS event-log adapter (src/eventsourced-nats/src/evt_log.rs)

Events are published to subject `{stream}.{type_name}.{id}`; the JetStream
stream is modelled as the list of its messages in stream order, the message at
index `i` having stream sequence `i + 1`. The broker's optimistic CAS —
`Publish::expected_last_subject_sequence` — is an external NATS contract;
it is modelled from the spec (§4.3.a): the publish succeeds iff the stream
sequence of the last message on the subject (0 when none) equals the header
value, and a publish *without* the header is unconditional. -/

/-- A message of the JetStream event stream. -/
structure NatsMsg (E : Type) where
  subject : String
  payload : E
deriving DecidableEq, Repr

/-- Errors surfaced by the modelled NATS adapter. `wrongLastSequence` stands
for the broker's rejected-publish error when the expected last subject
sequence does not match (wrapped by the adapter as a generic NATS error). -/
inductive NatsError where
  | wrongLastSequence
deriving DecidableEq, Repr

namespace NatsEvtLog

/-- The stream sequence of the last message on `subject` (0 when the subject
has no messages): the broker state that `expected_last_subject_sequence`
is compared against, and the value `NatsEvtLog::last_seq_no` reads via
`get_last_raw_message_by_subject`. -/
def lastSubjectSeq (msgs : List (NatsMsg E)) (subject : String) : Nat :=
  (msgs.enumFrom 1).foldl
    (fun acc p => if p.2.subject = subject then p.1 else acc) 0

/-- `NatsEvtLog::persist` (evt_log.rs lines 134-164): builds a publish with
`expected_last_subject_sequence(k)` exactly when `last_seq_no = Some(k)`
(the `into_iter().fold`), publishes to `{stream}.{type_name}.{id}` and returns
`ack.sequence`, the stream-global sequence of the new message. The broker CAS
is modelled from the spec (§4.3.a). -/
def persist (msgs : List (NatsMsg E)) (payload : E) (subject : String)
    (lastSeqNo : Option Nat) : Except NatsError (Nat × List (NatsMsg E)) :=
  match lastSeqNo with
  | some k =>
      if lastSubjectSeq msgs subject = k then
        .ok (msgs.length + 1, msgs ++ [⟨subject, payload⟩])
      else
        .error .wrongLastSequence
  | none => .ok (msgs.length + 1, msgs ++ [⟨subject, payload⟩])

end NatsEvtLog

/-! ## Entity runtime (src/eventsourced/src/lib.rs, `EventSourcedExt::spawn`)

The spawn protocol and the command loop, as pure functions. The event-log and
snapshot-store collaborators are parameters (the code is generic over the
`EvtLog` and `SnapshotStore` traits); the entity id is baked into the handler
parameters. -/

/-- Rust's `Option<NonZeroU64>` ordering as used by `last_seq_no < snapshot_seq_no`
and `snapshot_seq_no < last_seq_no` in `spawn`: `None` is less than `Some`. -/
def optLt : Option Nat → Option Nat → Bool
  | none, none => false
  | none, some _ => true
  | some _, none => false
  | some a, some b => decide (a < b)

/-- The spawn error raised when the log's last sequence number is below the
snapshot's (`SpawnError::InvalidLastSeqNo`). -/
inductive SpawnErr where
  | invalidLastSeqNo
deriving DecidableEq, Repr

/-- The state-restoration part of `EventSourcedExt::spawn` (lib.rs lines
116-159): restore the snapshot, validate `last_seq_no < snapshot_seq_no`,
then — when `snapshot_seq_no < last_seq_no` — open
`evts_by_id(id, from = snapshot_seq_no + 1 or 1)` and fold `handle_evt` over
the stream while `seq_no <= to_seq_no` (`try_take_while` then `try_fold`).
Returns the in-memory state handed to the command loop.
`dflt` is `State::default()`, `evtsById f` the list of `(seq_no, evt)` items
the live stream delivers when opened at `f`. -/
def spawnState (handleEvt : S → E → S) (dflt : S) (snapshot : Option (Nat × S))
    (lastSeqNo : Option Nat) (evtsById : Nat → List (Nat × E)) :
    Except SpawnErr S :=
  let snapshotSeqNo := snapshot.map Prod.fst
  if optLt lastSeqNo snapshotSeqNo then
    .error .invalidLastSeqNo
  else
    let state := (snapshot.map Prod.snd).getD dflt
    if optLt snapshotSeqNo lastSeqNo then
      let fromSeqNo := (snapshotSeqNo.map (· + 1)).getD 1
      let toSeqNo := lastSeqNo.getD 0
      .ok ((((evtsById fromSeqNo).takeWhile fun p => decide (p.1 ≤ toSeqNo)).foldl
        (fun s p => handleEvt s p.2) state))
    else
      .ok state

/-- The events a dense per-entity log delivers from sequence number `f`
upward: the event with sequence number `i` is `log[i-1]`, so the items are
`(f, log[f-1]), (f+1, log[f]), …, (log.length, log[log.length-1])`. -/
def logEvtsFrom (log : List E) (f : Nat) : List (Nat × E) :=
  (List.range' f (log.length + 1 - f)).zip (log.drop (f - 1))

/-- The log's last sequence number for a dense per-entity log: `None` when
empty, otherwise the number of events. -/
def lastSeqNoOf (log : List E) : Option Nat :=
  if log.length = 0 then none else some log.length

/-- The outcome the command loop produces for one received command:
`repliedOk` — event persisted and applied, `Ok(())` sent to the reply slot;
`repliedErr e` — command rejected, `Err(e)` sent to the reply slot;
`terminated` — persisting failed: nothing is sent to the reply slot and the
loop breaks, so no later command produces any outcome. -/
inductive CmdOutcome (DomErr : Type) where
  | repliedOk
  | repliedErr (e : DomErr)
  | terminated
deriving DecidableEq, Repr

/-- The mutable state of the command loop: the entity state, the last
sequence number, the `evt_count` snapshot-cadence counter, and the states of
the event log and the snapshot store it talks to. -/
structure LoopState (S LS SS : Type) where
  state : S
  lastSeqNo : Option Nat
  evtCount : Nat
  evtLog : LS
  snapshots : SS
deriving Repr

/-- The value `evt_count` is initialized to on every spawn
(`let mut evt_count = 0u64;`, lib.rs line 167). -/
def initialEvtCount : Nat := 0

/-- The command loop of `EventSourcedExt::spawn` (lib.rs lines 166-233),
processing the commands received on the channel in order:

* `handle_cmd` returns `Err(e)`: send `Err(e)` to the reply slot, continue
  with unchanged state (lib.rs lines 223-228);
* `handle_cmd` returns `Ok(evt)` and `persist` fails: reply nothing, break
  (lib.rs lines 215-219);
* `persist` returns `Ok(seq_no)`: set `last_seq_no`, apply `handle_evt`,
  increment `evt_count`; if `snapshot_after` is set and
  `evt_count % snapshot_after == 0`, call `save(id, seq_no, state)`, and on
  a save error keep going with the store unchanged (the error is only
  logged, lib.rs lines 196-208); send `Ok(())` (lib.rs lines 183-213).

Returns one `CmdOutcome` per command actually received before the loop ends,
plus the final loop state. -/
def runLoop (handleCmd : S → C → Except DomErr Ev) (handleEvt : S → Ev → S)
    (persist : LS → Ev → Option Nat → Except PErr (Nat × LS))
    (save : SS → Nat → S → Except SErr SS) (snapshotAfter : Option Nat) :
    LoopState S LS SS → List C → List (CmdOutcome DomErr) × LoopState S LS SS
  | st, [] => ([], st)
  | st, cmd :: cmds =>
    match handleCmd st.state cmd with
    | .error e =>
      let rest := runLoop handleCmd handleEvt persist save snapshotAfter st cmds
      (.repliedErr e :: rest.1, rest.2)
    | .ok evt =>
      match persist st.evtLog evt st.lastSeqNo with
      | .error _ => ([.terminated], st)
      | .ok (seqNo, evtLog) =>
        let state := handleEvt st.state evt
        let evtCount := st.evtCount + 1
        let snapshots :=
          if (snapshotAfter.map fun a => evtCount % a == 0).getD false then
            match save st.snapshots seqNo state with
            | .ok snapshots => snapshots
            | .error _ => st.snapshots
          else st.snapshots
        let rest := runLoop handleCmd handleEvt persist save snapshotAfter
          ⟨state, some seqNo, evtCount, evtLog, snapshots⟩ cmds
        (.repliedOk :: rest.1, rest.2)

/-! ## NATS snapshot store (src/eventsourced-nats/src/snapshot_store.rs)

The stored value is the protobuf encoding of the message
`Snapshot { seq_no: uint64 = 1, state: bytes = 2 }` (`proto::Snapshot`).
The encoder/decoder pair is prost-generated code that is not part of the
sources; it is modelled from the spec: "Snapshot record: length-delimited
binary encoding of `{ seq_no: uint64 field 1, state: bytes field 2 }`" (§6),
following the standard protobuf wire format (LEB128 varints, tag =
field number × 8 + wire type, default-valued fields omitted). Bytes are `Nat`
values below 256. -/

/-- LEB128 varint encoding: 7-bit groups, least significant first, the high
bit set on every byte but the last. The first argument is structural fuel
bounding the recursion depth; the value shrinks at every emitted byte, so
`varintEncode` passes fuel that always suffices. -/
def varintEncodeAux : Nat → Nat → List Nat
  | 0, n => [n]
  | fuel + 1, n =>
    if n < 128 then [n] else (n % 128 + 128) :: varintEncodeAux fuel (n / 128)

/-- LEB128 varint encoding of `n`. -/
def varintEncode (n : Nat) : List Nat :=
  varintEncodeAux n n

/-- LEB128 varint decoding; returns the value and the remaining bytes. -/
def varintDecode : List Nat → Option (Nat × List Nat)
  | [] => none
  | b :: rest =>
    if b < 128 then some (b, rest)
    else
      match varintDecode rest with
      | some (n, r) => some (b - 128 + 128 * n, r)
      | none => none

/-- Protobuf encoding of `proto::Snapshot { seq_no, state }` as produced by
`prost::Message::encode`: field 1 (`uint64`, wire type 0, tag byte 8) is
omitted when `seqNo = 0`; field 2 (`bytes`, wire type 2, tag byte 18) is
omitted when `state` is empty. -/
def encodeSnapshotProto (seqNo : Nat) (state : List Nat) : List Nat :=
  (if seqNo = 0 then [] else 8 :: varintEncode seqNo)
    ++ (if state = [] then [] else 18 :: varintEncode state.length ++ state)

/-- The field-reading loop of `prost::Message::decode` for `proto::Snapshot`,
with fuel for termination (each field consumes at least one byte, so
`bytes.length` fuel suffices): read a tag varint, dispatch on field number
and wire type, and accumulate `seq_no` (default 0) and `state` (default
empty). -/
def decodeSnapshotFields : Nat → List Nat → Nat → List Nat →
    Option (Nat × List Nat)
  | _, [], seqNo, state => some (seqNo, state)
  | 0, _ :: _, _, _ => none
  | fuel + 1, b :: bs, seqNo, state =>
    match varintDecode (b :: bs) with
    | none => none
    | some (tag, rest) =>
      if tag / 8 = 1 ∧ tag % 8 = 0 then
        match varintDecode rest with
        | some (n, r) => decodeSnapshotFields fuel r n state
        | none => none
      else if tag / 8 = 2 ∧ tag % 8 = 2 then
        match varintDecode rest with
        | some (len, r) =>
          if len ≤ r.length then
            decodeSnapshotFields fuel (r.drop len) seqNo (r.take len)
          else none
        | none => none
      else none

/-- Protobuf decoding of `proto::Snapshot`: returns `(seq_no, state)`, with
the protobuf defaults `(0, [])` for absent fields. -/
def decodeSnapshotProto (bytes : List Nat) : Option (Nat × List Nat) :=
  decodeSnapshotFields bytes.length bytes 0 []

/-- Errors surfaced by the modelled NATS snapshot store. -/
inductive SnapErr (CErr : Type) where
  | intoBytes (e : CErr)
  | fromBytes (e : CErr)
  | decodeSnapshot
  | invalidSeqNo
deriving Repr

/-- The KV bucket, keyed by entity id. The claim's assumption that the bucket
returns the bytes last put for an id holds by construction of `kvPut`. -/
def KvBucket (K : Type) := K → Option (List Nat)

/-- `Store::put`: overwrite the value for `id`. -/
def kvPut [DecidableEq K] (kv : KvBucket K) (id : K) (bytes : List Nat) :
    KvBucket K :=
  fun k => if k = id then some bytes else kv k

namespace NatsSnapshotStore

/-- `NatsSnapshotStore::save` (snapshot_store.rs lines 97-130): serialize the
state with the user codec, encode `proto::Snapshot { seq_no, state }` and put
it into the KV bucket under the id. -/
def save [DecidableEq K] (toBytes : S → Except CErr (List Nat))
    (kv : KvBucket K) (id : K) (seqNo : Nat) (state : S) :
    Except (SnapErr CErr) (KvBucket K) :=
  match toBytes state with
  | .error e => .error (.intoBytes e)
  | .ok stateBytes => .ok (kvPut kv id (encodeSnapshotProto seqNo stateBytes))

/-- `NatsSnapshotStore::load` (snapshot_store.rs lines 132-175): get the value
for the id from the KV bucket (`None` when absent), decode the protobuf
envelope, decode the state with the user codec, and reject a zero `seq_no`
(`seq_no.try_into()` via `TrySeqNoFromZero`). -/
def load [DecidableEq K] (fromBytes : List Nat → Except CErr S)
    (kv : KvBucket K) (id : K) : Except (SnapErr CErr) (Option (Nat × S)) :=
  match kv id with
  | none => .ok none
  | some bytes =>
    match decodeSnapshotProto bytes with
    | none => .error .decodeSnapshot
    | some (seqNo, stateBytes) =>
      match fromBytes stateBytes with
      | .error e => .error (.fromBytes e)
      | .ok state =>
        if seqNo = 0 then .error .invalidSeqNo
        else .ok (some (seqNo, state))

end NatsSnapshotStore

/-! ## Helper lemmas -/

/-- A stored sequence number is one carried by a row of the table with the
queried id. -/
theorem mem_pgSeqNos [DecidableEq I] (table : List (PgRow I E)) (id : I)
    (n : Nat) :
    n ∈ PostgresEvtLog.pgSeqNos table id
      ↔ ∃ r ∈ table, r.id = id ∧ r.seqNo = n := by
  simp only [PostgresEvtLog.pgSeqNos, List.mem_map, List.mem_filter,
    decide_eq_true_eq]
  constructor
  · rintro ⟨r, ⟨hr, hid⟩, hn⟩
    exact ⟨r, hr, hid, hn⟩
  · rintro ⟨r, hr, hid, hn⟩
    exact ⟨r, ⟨hr, hid⟩, hn⟩

/-- The primary-key check of the modelled `INSERT` hits iff the sequence
number is already stored for the id. -/
theorem pg_conflict_iff [DecidableEq I] (table : List (PgRow I E)) (id : I)
    (n : Nat) :
    (table.any fun r => decide (r.id = id) && decide (r.seqNo = n)) = true
      ↔ n ∈ PostgresEvtLog.pgSeqNos table id := by
  rw [List.any_eq_true, mem_pgSeqNos]
  simp only [Bool.and_eq_true, decide_eq_true_eq]

/-- Folding the last-matching-index scan over messages that all match yields
the index of the final message. -/
theorem lastSubjectSeq_scan_all (subj : String) :
    ∀ (msgs : List (NatsMsg E)) (start acc : Nat),
      (∀ m ∈ msgs, m.subject = subj) →
      ((msgs.enumFrom start).foldl
          (fun acc p => if p.2.subject = subj then p.1 else acc) acc)
        = if msgs.length = 0 then acc else start + msgs.length - 1
  | [], _, _, _ => by simp
  | m :: ms, start, acc, h => by
    have hm : m.subject = subj := h m (List.mem_cons_self m ms)
    have ih := lastSubjectSeq_scan_all subj ms (start + 1) start
      (fun x hx => h x (List.mem_cons_of_mem m hx))
    simp only [List.enumFrom, List.foldl_cons, hm, if_pos, List.length_cons]
    rw [ih]
    by_cases hms : ms.length = 0 <;> simp [hms]

/-- When every message of the stream is on the subject, the last subject
sequence is the stream length. -/
theorem lastSubjectSeq_of_all (msgs : List (NatsMsg E)) (subj : String)
    (h : ∀ m ∈ msgs, m.subject = subj) :
    NatsEvtLog.lastSubjectSeq msgs subj = msgs.length := by
  rw [NatsEvtLog.lastSubjectSeq, lastSubjectSeq_scan_all subj msgs 1 0 h]
  by_cases hms : msgs.length = 0 <;> simp [hms]

/-! ## Claims -/

/-- C3 (code_bug evaluation): in `PostgresEvtLog::evts_by_id`, after the
stream delivers an event with sequence number 1 while the cursor is at 1, the
code moves the cursor to 3, not to the claimed 2 (`current_seq_no +=
seq_no + 1` instead of `= seq_no + 1`); after a batch with sequence numbers
1, 2, 3 the cursor is at 10, so an event with sequence number 4 appended
while the stream is in its polling tail is never emitted — the by-type
stream's advance (`evts_by_type`, an `=` assignment) moves to 2 as claimed. -/
theorem evts_by_id_cursor_skips_events :
    PostgresEvtLog.evtsByIdCursorAdvance 1 1 = 3
    ∧ PostgresEvtLog.evtsByIdCursorAdvance 1 1 ≠ 1 + 1
    ∧ PostgresEvtLog.cursorAfterBatch 1 [1, 2, 3] = 10
    ∧ PostgresEvtLog.evtsByIdTwoRounds
        [(1, (0 : Nat)), (2, 0), (3, 0)] [(4, 0)] 1 = [(1, 0), (2, 0), (3, 0)]
    ∧ (4, (0 : Nat)) ∉ PostgresEvtLog.evtsByIdTwoRounds
        [(1, (0 : Nat)), (2, 0), (3, 0)] [(4, 0)] 1
    ∧ PostgresEvtLog.evtsByTypeCursorAdvance 1 1 = 1 + 1 := by
  decide

/-- C1 (counterexample): with a single event at sequence number 1 for id 0
(so the sequence numbers are contiguous from 1 and the current last entity
sequence number is 1), `PostgresEvtLog::persist` with
`expected_last_entity_seq = Some(2)` succeeds — returning 3 and creating a
gap — although the current last (1) differs from the expected value (2), so
the append does not fail on mismatch as the claim states. -/
theorem pg_persist_gap_counterexample :
    PostgresEvtLog.pgSeqNos [⟨1, "t", 0, 10⟩] (0 : Nat) = [1]
    ∧ PostgresEvtLog.last_seq_no [⟨1, "t", (0 : Nat), (10 : Nat)⟩] 0 = some 1
    ∧ PostgresEvtLog.persist [⟨1, "t", 0, 10⟩] (11 : Nat) "t" (0 : Nat) (some 2)
        = .ok (3, [⟨1, "t", 0, 10⟩, ⟨3, "t", 0, 11⟩])
    ∧ (2 : Nat) ≠ 1 :=
  ⟨rfl, rfl, rfl, by decide⟩

/-- C1 (amended): with a contiguous history 1..L for the entity,
`NatsEvtLog::persist` with `expected_last_entity_seq = Some(k)` succeeds iff
the current last entity sequence number equals `k` — but
`PostgresEvtLog::persist` succeeds iff `L ≤ k` (it fails on `k < L`, yet also
succeeds on every `k > L`, inserting at `k + 1` and creating a gap). -/
theorem persist_expected_some_amended {I E B : Type} [DecidableEq I]
    (table : List (PgRow I E)) (id : I) (tn : String) (e : E) (L k : Nat)
    (hpg : PostgresEvtLog.pgSeqNos table id = List.range' 1 L)
    (msgs : List (NatsMsg B)) (subj : String) (p : B)
    (hnats : ∀ m ∈ msgs, m.subject = subj) (hlen : msgs.length = L) :
    ((∃ r, PostgresEvtLog.persist table e tn id (some k) = .ok r) ↔ L ≤ k)
    ∧ ((∃ r, NatsEvtLog.persist msgs p subj (some k) = .ok r) ↔ k = L) := by
  constructor
  · rw [PostgresEvtLog.persist]
    simp only [Option.getD_some]
    by_cases hc :
        (table.any fun r => decide (r.id = id) && decide (r.seqNo = k + 1))
          = true
    · have hk : k + 1 ∈ PostgresEvtLog.pgSeqNos table id :=
        (pg_conflict_iff table id (k + 1)).mp hc
      rw [hpg, List.mem_range'_1] at hk
      simp only [hc, if_true]
      constructor
      · rintro ⟨r, hr⟩
        exact absurd hr (by simp)
      · intro hLk
        omega
    · have hk : k + 1 ∉ PostgresEvtLog.pgSeqNos table id := fun hmem =>
        hc ((pg_conflict_iff table id (k + 1)).mpr hmem)
      rw [hpg, List.mem_range'_1] at hk
      simp only [Bool.not_eq_true] at hc
      simp only [hc, Bool.false_eq_true, if_false]
      constructor
      · intro _
        omega
      · intro _
        exact ⟨_, rfl⟩
  · rw [NatsEvtLog.persist, lastSubjectSeq_of_all msgs subj hnats, hlen]
    by_cases hkL : L = k
    · simp [hkL]
    · simp only [hkL, if_false]
      constructor
      · rintro ⟨r, hr⟩
        exact absurd hr (by simp)
      · intro hk
        exact absurd hk.symm hkL

/-- C1 (witness): both characterizations at a concrete contiguous history of
length 2 with `k = 2`: both appends succeed. -/
theorem persist_expected_some_witness :
    (∃ r, PostgresEvtLog.persist
        [⟨1, "t", 0, 10⟩, ⟨2, "t", 0, 11⟩] (12 : Nat) "t" (0 : Nat) (some 2)
      = .ok r)
    ∧ (∃ r, NatsEvtLog.persist [⟨"s", (0 : Nat)⟩, ⟨"s", 1⟩] 2 "s" (some 2)
      = .ok r) := by
  have h := persist_expected_some_amended
    [⟨1, "t", 0, 10⟩, ⟨2, "t", 0, 11⟩] (0 : Nat) "t" (12 : Nat) 2 2
    (by decide) [⟨"s", (0 : Nat)⟩, ⟨"s", 1⟩] "s" 2 (by decide) (by decide)
  exact ⟨h.1.mpr (by decide), h.2.mpr rfl⟩

/-- C2 (counterexample): with one event already appended for the subject of
`(type_name, id)`, `NatsEvtLog::persist` with
`expected_last_entity_seq = None` does not fail: no expected-sequence header
is attached, so the broker appends unconditionally and returns sequence 2. -/
theorem nats_persist_none_counterexample :
    NatsEvtLog.persist [⟨"s", (0 : Nat)⟩] 1 "s" none
      = .ok (2, [⟨"s", 0⟩, ⟨"s", 1⟩])
    ∧ NatsEvtLog.lastSubjectSeq [⟨"s", (0 : Nat)⟩] "s" = 1 :=
  ⟨rfl, rfl⟩

/-- C2 (amended): `PostgresEvtLog::persist` with
`expected_last_entity_seq = None` computes sequence number 1 and succeeds iff
no event with sequence number 1 exists for the id — in particular it fails
whenever the entity has a nonempty contiguous-from-1 history and succeeds,
returning 1, when the entity has no prior events. `NatsEvtLog::persist` with
`None` attaches no expected-sequence header, so it never fails the check and
always appends, returning the next stream sequence. -/
theorem persist_expected_none_amended {I E B : Type} [DecidableEq I]
    (table : List (PgRow I E)) (id : I) (tn : String) (e : E)
    (msgs : List (NatsMsg B)) (subj : String) (p : B) :
    (PostgresEvtLog.persist table e tn id none
      = if 1 ∈ PostgresEvtLog.pgSeqNos table id then .error .uniqueViolation
        else .ok (1, table ++ [⟨1, tn, id, e⟩]))
    ∧ NatsEvtLog.persist msgs p subj none
      = .ok (msgs.length + 1, msgs ++ [⟨subj, p⟩]) := by
  refine ⟨?_, rfl⟩
  rw [PostgresEvtLog.persist]
  simp only [Option.getD_none, Nat.zero_add]
  by_cases hmem : 1 ∈ PostgresEvtLog.pgSeqNos table id
  · rw [if_pos ((pg_conflict_iff table id 1).mpr hmem), if_pos hmem]
  · rw [if_neg (fun hc => hmem ((pg_conflict_iff table id 1).mp hc)),
      if_neg hmem]

/-- `takeWhile` keeps exactly a prefix on which the predicate holds when
everything after it fails the predicate. -/
theorem takeWhile_append_of_forall (p : α → Bool) :
    ∀ (xs ys : List α), (∀ x ∈ xs, p x = true) → (∀ y ∈ ys, p y = false) →
      (xs ++ ys).takeWhile p = xs
  | [], ys, _, hys => by
    cases ys with
    | nil => rfl
    | cons y ys =>
      simp only [List.nil_append]
      exact List.takeWhile_cons_of_neg (by
        simp [hys y (List.mem_cons_self y ys)])
  | x :: xs, ys, hxs, hys => by
    rw [List.cons_append,
      List.takeWhile_cons_of_pos (hxs x (List.mem_cons_self x xs)),
      takeWhile_append_of_forall p xs ys
        (fun a ha => hxs a (List.mem_cons_of_mem x ha)) hys]

/-- Folding a function that only looks at second components over a zip of
equally long lists is folding over the second list. -/
theorem foldl_zip_snd (f : S → E → S) :
    ∀ (l1 : List Nat) (l2 : List E), l1.length = l2.length → ∀ s : S,
      (l1.zip l2).foldl (fun s p => f s p.2) s = l2.foldl f s
  | [], [], _, s => rfl
  | [], _ :: _, h, s => by simp at h
  | _ :: _, [], h, s => by simp at h
  | a :: l1, b :: l2, h, s => by
    simp only [List.zip_cons_cons, List.foldl_cons]
    exact foldl_zip_snd f l1 l2 (by simpa using h) (f s b)

/-- The sequence numbers delivered by `logEvtsFrom log f` lie between `f` and
`log.length`. -/
theorem logEvtsFrom_seq_bounds (log : List E) (f : Nat) :
    ∀ q ∈ logEvtsFrom log f, f ≤ q.1 ∧ q.1 ≤ log.length := by
  intro q hq
  rw [logEvtsFrom] at hq
  have h1 := (List.of_mem_zip hq).1
  rw [List.mem_range'_1] at h1
  omega

/-- The replay fold over the events delivered from sequence number `k + 1`
of a dense log equals the fold over the log's elements past index `k`. -/
theorem logEvtsFrom_fold (handleEvt : S → E → S) (log : List E) (k : Nat)
    (hk : k ≤ log.length) (s : S) :
    (logEvtsFrom log (k + 1)).foldl (fun s p => handleEvt s p.2) s
      = (log.drop k).foldl handleEvt s := by
  rw [logEvtsFrom]
  have h1 : log.length + 1 - (k + 1) = log.length - k := by omega
  simp only [Nat.add_sub_cancel, h1]
  exact foldl_zip_snd handleEvt _ _
    (by rw [List.length_range', List.length_drop]) s

/-- C4 (confirmed): the state `spawn` hands to the command loop. With a dense
log of `log.length` events, a snapshot at `k ≤ log.length` with state `s`
(or none), and a live `evts_by_id` stream that delivers the stored events
from the requested position followed by arbitrary later events with sequence
numbers beyond `log_last`, the restored state is exactly `handle_evt` folded
over `s` (or the default state) and the events `k + 1 .. log.length` (from 1
when there is no snapshot): no live event past `log_last` is consumed, and
when `k = log.length` no event at all is folded. -/
theorem spawn_replays_snapshot_tail {E S : Type} (handleEvt : S → E → S)
    (dflt : S) (log : List E) (live : List (Nat × E))
    (snapshot : Option (Nat × S))
    (hsnap : ∀ q ∈ snapshot, 1 ≤ q.1 ∧ q.1 ≤ log.length)
    (hlive : ∀ q ∈ live, log.length < q.1) :
    spawnState handleEvt dflt snapshot (lastSeqNoOf log)
        (fun f => logEvtsFrom log f ++ live)
      = .ok ((log.drop ((snapshot.map Prod.fst).getD 0)).foldl handleEvt
          ((snapshot.map Prod.snd).getD dflt)) := by
  have htail : ∀ f, f ≤ log.length + 1 →
      ((logEvtsFrom log f ++ live).takeWhile
        fun p => decide (p.1 ≤ log.length)) = logEvtsFrom log f := by
    intro f hf
    exact takeWhile_append_of_forall _ _ _
      (fun q hq => by
        have := logEvtsFrom_seq_bounds log f q hq
        simp [this.2])
      (fun q hq => by
        have := hlive q hq
        simp; omega)
  cases snapshot with
  | none =>
    by_cases hn : log.length = 0
    · rw [List.length_eq_zero] at hn
      subst hn
      rfl
    · rw [spawnState, lastSeqNoOf, if_neg hn]
      simp only [Option.map_none', optLt, Bool.false_eq_true, if_false,
        Option.getD_none, Option.map_some', Option.getD_some, if_true,
        List.drop_zero]
      rw [htail 1 (by omega)]
      have h0 : logEvtsFrom log 1 = logEvtsFrom log (0 + 1) := by rfl
      rw [h0, logEvtsFrom_fold handleEvt log 0 (by omega) dflt,
        List.drop_zero]
  | some q =>
    obtain ⟨k, s⟩ := q
    obtain ⟨hk1, hkn⟩ := hsnap (k, s) rfl
    have hn : log.length ≠ 0 := by omega
    rw [spawnState, lastSeqNoOf, if_neg hn]
    simp only [Option.map_some', Option.getD_some, optLt,
      decide_eq_true_eq]
    rw [if_neg (by simp; omega)]
    by_cases hlt : k < log.length
    · rw [if_pos (by simp [hlt])]
      simp only [Except.ok.injEq]
      rw [htail (k + 1) (by omega), logEvtsFrom_fold handleEvt log k hkn s]
    · have hkeq : k = log.length := by omega
      rw [if_neg (by simp; omega)]
      rw [hkeq, List.drop_length]
      rfl

/-- C4 (witness): a log of four events with a snapshot at sequence number 2
and a pending live event at sequence number 5: the restored state folds
exactly events 3 and 4 over the snapshot state. -/
theorem spawn_replays_snapshot_tail_witness :
    spawnState (fun s e => s + e) 0 (some (2, 100))
        (lastSeqNoOf [10, 20, 30, 40])
        (fun f => logEvtsFrom [10, 20, 30, 40] f ++ [(5, 999)])
      = .ok 170 := by
  rw [spawn_replays_snapshot_tail (fun s e => s + e) 0 [10, 20, 30, 40]
    [(5, 999)] (some (2, 100))
    (by intro q hq; simp only [Option.mem_def, Option.some.injEq] at hq
        subst hq; exact ⟨by omega, by simp⟩)
    (by intro q hq; simp only [List.mem_singleton] at hq
        subst hq; simp)]
  rfl

/-- C5 (confirmed): when the command handler accepts a command but
`EvtLog::persist` returns an error (a conflict included), the loop produces
the `terminated` outcome for that command — nothing is sent to its reply
slot — and ends immediately: however many commands are still queued, none of
them yields any outcome. -/
theorem persist_error_terminates_loop {S C Ev DomErr PErr SErr LS SS : Type}
    (handleCmd : S → C → Except DomErr Ev) (handleEvt : S → Ev → S)
    (persist : LS → Ev → Option Nat → Except PErr (Nat × LS))
    (save : SS → Nat → S → Except SErr SS) (snapshotAfter : Option Nat)
    (st : LoopState S LS SS) (cmd : C) (cmds : List C) (evt : Ev) (err : PErr)
    (h1 : handleCmd st.state cmd = .ok evt)
    (h2 : persist st.evtLog evt st.lastSeqNo = .error err) :
    runLoop handleCmd handleEvt persist save snapshotAfter st (cmd :: cmds)
      = ([.terminated], st) := by
  simp only [runLoop, h1, h2]

/-- C5 (witness): a persist that always fails: the first command terminates
the loop and the two queued commands are never handled. -/
theorem persist_error_terminates_loop_witness :
    runLoop (fun (_ : Nat) (c : Nat) => (Except.ok c : Except Unit Nat))
        (fun s _ => s)
        (fun (_ : Unit) (_ : Nat) (_ : Option Nat) =>
          (Except.error () : Except Unit (Nat × Unit)))
        (fun (ss : Unit) _ _ => (Except.ok ss : Except Unit Unit)) none
        ⟨0, none, initialEvtCount, (), ()⟩ [7, 8, 9]
      = ([.terminated], ⟨0, none, initialEvtCount, (), ()⟩) :=
  persist_error_terminates_loop _ _ _ _ none _ 7 [8, 9] 7 () rfl rfl

/-- C6 (confirmed): when the command handler rejects a command with a domain
error, the loop sends exactly `Err(e)` to that command's reply slot and
continues with the remaining commands from the very same loop state: the
entity state, `last_seq_no`, the event log and the snapshot store are all
unchanged. -/
theorem domain_error_replies_and_continues {S C Ev DomErr PErr SErr LS SS : Type}
    (handleCmd : S → C → Except DomErr Ev) (handleEvt : S → Ev → S)
    (persist : LS → Ev → Option Nat → Except PErr (Nat × LS))
    (save : SS → Nat → S → Except SErr SS) (snapshotAfter : Option Nat)
    (st : LoopState S LS SS) (cmd : C) (cmds : List C) (e : DomErr)
    (h : handleCmd st.state cmd = .error e) :
    runLoop handleCmd handleEvt persist save snapshotAfter st (cmd :: cmds)
      = (.repliedErr e
          :: (runLoop handleCmd handleEvt persist save snapshotAfter st
            cmds).1,
        (runLoop handleCmd handleEvt persist save snapshotAfter st cmds).2) := by
  simp only [runLoop, h]

/-- C6 (witness): a handler that rejects odd commands: rejecting leaves the
loop state untouched and the following accepted command still persists at
sequence number 1. -/
theorem domain_error_replies_and_continues_witness :
    runLoop (fun (_ : Nat) (c : Nat) =>
          if c % 2 = 1 then Except.error c else Except.ok c)
        (fun s e => s + e)
        (fun (log : List Nat) (e : Nat) (last : Option Nat) =>
          (Except.ok (last.getD 0 + 1, log ++ [e]) :
            Except Unit (Nat × List Nat)))
        (fun (ss : Unit) _ _ => (Except.ok ss : Except Unit Unit)) none
        ⟨0, none, initialEvtCount, [], ()⟩ [5, 2]
      = ([.repliedErr 5, .repliedOk], ⟨2, some 1, 1, [2], ()⟩) := by
  rw [domain_error_replies_and_continues _ _ _ _ none
    ⟨0, none, initialEvtCount, [], ()⟩ 5 [2] 5 rfl]
  rfl

/-- C7 (confirmed): when an event is persisted at a point where the applied
count reaches a multiple of `snapshot_after` and `SnapshotStore::save`
fails, the error is swallowed: the command still gets `Ok(())` in its reply
slot, and the loop continues with the rest of the commands from the updated
state — event applied, `last_seq_no` advanced, event log grown — with the
snapshot store exactly as it was. -/
theorem snapshot_save_error_swallowed {S C Ev DomErr PErr SErr LS SS : Type}
    (handleCmd : S → C → Except DomErr Ev) (handleEvt : S → Ev → S)
    (persist : LS → Ev → Option Nat → Except PErr (Nat × LS))
    (save : SS → Nat → S → Except SErr SS) (a : Nat)
    (st : LoopState S LS SS) (cmd : C) (cmds : List C) (evt : Ev)
    (seqNo : Nat) (log2 : LS) (err : SErr)
    (h1 : handleCmd st.state cmd = .ok evt)
    (h2 : persist st.evtLog evt st.lastSeqNo = .ok (seqNo, log2))
    (h4 : (st.evtCount + 1) % a = 0)
    (h5 : save st.snapshots seqNo (handleEvt st.state evt) = .error err) :
    runLoop handleCmd handleEvt persist save (some a) st (cmd :: cmds)
      = (.repliedOk
          :: (runLoop handleCmd handleEvt persist save (some a)
            ⟨handleEvt st.state evt, some seqNo, st.evtCount + 1, log2,
              st.snapshots⟩ cmds).1,
        (runLoop handleCmd handleEvt persist save (some a)
          ⟨handleEvt st.state evt, some seqNo, st.evtCount + 1, log2,
            st.snapshots⟩ cmds).2) := by
  simp only [runLoop, h1, h2, Option.map_some', Option.getD_some, h4,
    Nat.zero_mod, beq_self_eq_true, beq_iff_eq, if_true, h5]

/-- C7 (witness): `snapshot_after = 1` with a save that always fails: the
command whose save failed is acknowledged with `Ok(())` and the next command
is still handled and persisted at sequence number 2. -/
theorem snapshot_save_error_swallowed_witness :
    runLoop (fun (_ : Nat) (c : Nat) => (Except.ok c : Except Unit Nat))
        (fun s e => s + e)
        (fun (log : List Nat) (e : Nat) (last : Option Nat) =>
          (Except.ok (last.getD 0 + 1, log ++ [e]) :
            Except Unit (Nat × List Nat)))
        (fun (_ : Unit) _ _ => (Except.error () : Except Unit Unit)) (some 1)
        ⟨0, none, initialEvtCount, [], ()⟩ [5, 7]
      = ([.repliedOk, .repliedOk], ⟨12, some 2, 2, [5, 7], ()⟩) := by
  rw [snapshot_save_error_swallowed _ _ _ _ 1
    ⟨0, none, initialEvtCount, [], ()⟩ 5 [7] 5 1 [5] () rfl rfl (by decide)
    rfl]
  rfl

/-! ## Snapshot cadence (C10)

Test doubles in the spirit of `TestEvtLog`/`TestSnapshotStore` in the
lib.rs tests: a deterministic log that assigns the next sequence number, and
a snapshot store that records the sequence numbers at which `save` is
called. -/

/-- A deterministic event log: persisting after `last_seq_no = Some(L)`
returns `L + 1` (and 1 after `None`). -/
def nextSeqPersist : Unit → Nat → Option Nat → Except Unit (Nat × Unit) :=
  fun _ _ last => .ok (last.getD 0 + 1, ())

/-- A snapshot store that records the sequence number of every save. -/
def recordingSave : List Nat → Nat → Nat → Except Unit (List Nat) :=
  fun saved seqNo _ => .ok (saved ++ [seqNo])

/-- The sequence numbers at which the loop saves snapshots over `m` applied
events, when `evt_count` starts at `c0` and `last_seq_no` at `L`:
the `d`-th applied event (at sequence number `L + d`) saves iff
`(c0 + d) % a = 0`. -/
def savesList (a : Nat) : Nat → Nat → Nat → List Nat
  | _, _, 0 => []
  | c0, L, m + 1 =>
    (if (c0 + 1) % a = 0 then [L + 1] else []) ++ savesList a (c0 + 1) (L + 1) m

/-- Running the loop over the deterministic log with the recording store
appends exactly `savesList` to the recorded saves. -/
theorem runLoop_snapshots_eq (a : Nat) :
    ∀ (cmds : List Nat) (s0 L c0 : Nat) (saved : List Nat),
      (runLoop (fun _ c => (Except.ok c : Except Unit Nat)) (fun s _ => s)
          nextSeqPersist recordingSave (some a)
          ⟨s0, some L, c0, (), saved⟩ cmds).2.snapshots
        = saved ++ savesList a c0 L cmds.length
  | [], s0, L, c0, saved => by simp [runLoop, savesList]
  | c :: cmds, s0, L, c0, saved => by
    rw [runLoop]
    simp only [nextSeqPersist, recordingSave, Option.getD_some,
      Option.map_some', beq_iff_eq]
    by_cases hc : (c0 + 1) % a = 0
    · rw [if_pos hc, runLoop_snapshots_eq a cmds s0 (L + 1) (c0 + 1)
        (saved ++ [L + 1])]
      simp [savesList, hc]
    · rw [if_neg hc, runLoop_snapshots_eq a cmds s0 (L + 1) (c0 + 1) saved]
      simp [savesList, hc]

/-- Membership in `savesList`: a save at `x` means the `d`-th applied event
reached a cadence multiple and had sequence number `L + d`. -/
theorem mem_savesList (a : Nat) :
    ∀ (m c0 L x : Nat),
      x ∈ savesList a c0 L m
        ↔ ∃ d, 1 ≤ d ∧ d ≤ m ∧ (c0 + d) % a = 0 ∧ x = L + d
  | 0, c0, L, x => by
    simp only [savesList, List.not_mem_nil, false_iff, not_exists]
    intro d
    omega
  | m + 1, c0, L, x => by
    rw [savesList, List.mem_append, mem_savesList a m (c0 + 1) (L + 1) x]
    constructor
    · rintro (h1 | ⟨d, hd1, hdm, hda, hx⟩)
      · by_cases hc : (c0 + 1) % a = 0
        · rw [if_pos hc, List.mem_singleton] at h1
          exact ⟨1, by omega, by omega, hc, by omega⟩
        · rw [if_neg hc] at h1
          exact absurd h1 (List.not_mem_nil x)
      · exact ⟨d + 1, by omega, by omega, by
          have : c0 + 1 + d = c0 + (d + 1) := by omega
          rw [this] at hda; exact hda, by omega⟩
    · rintro ⟨d, hd1, hdm, hda, hx⟩
      by_cases hd : d = 1
      · subst hd
        left
        rw [if_pos (by omega : (c0 + 1) % a = 0), List.mem_singleton]
        omega
      · right
        exact ⟨d - 1, by omega, by omega, by
          have : c0 + 1 + (d - 1) = c0 + d := by omega
          rw [this]; exact hda, by omega⟩

/-- C10 (confirmed): the cadence counter starts at zero on every spawn
(`initialEvtCount`), so over a run that applies one event per command the
snapshot store is invoked exactly at the `d`-th applied event for each
multiple `d` of `snapshot_after` counted from this spawn — at sequence
numbers `L + d` for a respawn at `last_seq_no = L`, regardless of `L`. -/
theorem snapshot_cadence_counts_from_spawn (a L : Nat) (cmds : List Nat)
    (s0 x : Nat) (_ha : 0 < a) :
    x ∈ (runLoop (fun _ c => (Except.ok c : Except Unit Nat)) (fun s _ => s)
          nextSeqPersist recordingSave (some a)
          ⟨s0, some L, initialEvtCount, (), []⟩ cmds).2.snapshots
      ↔ ∃ d, 1 ≤ d ∧ d ≤ cmds.length ∧ d % a = 0 ∧ x = L + d := by
  rw [runLoop_snapshots_eq a cmds s0 L initialEvtCount [], List.nil_append,
    mem_savesList a cmds.length initialEvtCount L x]
  constructor
  · rintro ⟨d, h1, h2, h3, h4⟩
    exact ⟨d, h1, h2, by simpa [initialEvtCount] using h3, h4⟩
  · rintro ⟨d, h1, h2, h3, h4⟩
    exact ⟨d, h1, h2, by simpa [initialEvtCount] using h3, h4⟩

/-- C10 (witness): an entity respawned at sequence number 41 with
`snapshot_after = 10`, given ten commands, snapshots at sequence number 51 —
and not at 50. -/
theorem snapshot_cadence_witness :
    51 ∈ (runLoop (fun _ c => (Except.ok c : Except Unit Nat)) (fun s _ => s)
          nextSeqPersist recordingSave (some 10)
          ⟨0, some 41, initialEvtCount, (), []⟩
          [1, 2, 3, 4, 5, 6, 7, 8, 9, 10]).2.snapshots
    ∧ 50 ∉ (runLoop (fun _ c => (Except.ok c : Except Unit Nat))
          (fun s _ => s) nextSeqPersist recordingSave (some 10)
          ⟨0, some 41, initialEvtCount, (), []⟩
          [1, 2, 3, 4, 5, 6, 7, 8, 9, 10]).2.snapshots := by
  constructor
  · exact (snapshot_cadence_counts_from_spawn 10 41
      [1, 2, 3, 4, 5, 6, 7, 8, 9, 10] 0 51 (by decide)).mpr
      ⟨10, by decide, by decide, by decide, by decide⟩
  · intro h
    obtain ⟨d, h1, h2, h3, h4⟩ := (snapshot_cadence_counts_from_spawn 10 41
      [1, 2, 3, 4, 5, 6, 7, 8, 9, 10] 0 50 (by decide)).mp h
    simp only [List.length_cons, List.length_nil] at h2
    omega

/-! ## Protobuf roundtrip (C8) -/

/-- With fuel at least the encoded value, decoding a varint encoding
consumes exactly its bytes. -/
theorem varintDecode_encodeAux :
    ∀ (fuel n : Nat), n ≤ fuel → ∀ rest,
      varintDecode (varintEncodeAux fuel n ++ rest) = some (n, rest)
  | 0, n, hn, rest => by
    have hn0 : n = 0 := by omega
    subst hn0
    rfl
  | fuel + 1, n, hn, rest => by
    rw [varintEncodeAux]
    by_cases h : n < 128
    · rw [if_pos h]
      simp [varintDecode, h]
    · have hdiv : n / 128 ≤ fuel := by omega
      have harith : n % 128 + 128 - 128 + 128 * (n / 128) = n := by omega
      rw [if_neg h, List.cons_append]
      simp only [varintDecode, if_neg (show ¬ (n % 128 + 128 < 128) by omega),
        varintDecode_encodeAux fuel (n / 128) hdiv rest, harith]

/-- Decoding a varint-encoded value consumes exactly its bytes. -/
theorem varintDecode_encode (n : Nat) (rest : List Nat) :
    varintDecode (varintEncode n ++ rest) = some (n, rest) :=
  varintDecode_encodeAux n n (le_refl n) rest

/-- The field loop accepts empty input with any fuel, returning the
accumulated fields. -/
theorem decodeSnapshotFields_nil (fuel seqNo : Nat) (state : List Nat) :
    decodeSnapshotFields fuel [] seqNo state = some (seqNo, state) := by
  cases fuel <;> rfl

/-- The field loop of the decoder inverts the encoder on any encoded
snapshot with a nonzero sequence number, given enough fuel. -/
theorem decodeSnapshotFields_encode (seqNo : Nat) (state : List Nat)
    (hseq : 1 ≤ seqNo) :
    ∀ fuel, (encodeSnapshotProto seqNo state).length ≤ fuel →
      decodeSnapshotFields fuel (encodeSnapshotProto seqNo state) 0 []
        = some (seqNo, state) := by
  intro fuel hfuel
  by_cases hst : state = []
  · subst hst
    have henc : encodeSnapshotProto seqNo []
        = 8 :: (varintEncode seqNo ++ []) := by
      rw [encodeSnapshotProto, if_neg (by omega), if_pos rfl,
        List.append_nil, List.append_nil]
    rw [henc] at hfuel ⊢
    obtain ⟨f, rfl⟩ : ∃ f, fuel = f + 1 := by
      cases fuel with
      | zero => simp at hfuel
      | succ f => exact ⟨f, rfl⟩
    have h8 : varintDecode (8 :: (varintEncode seqNo ++ []))
        = some (8, varintEncode seqNo ++ []) := by
      rw [varintDecode, if_pos (by omega)]
    simp only [decodeSnapshotFields, h8, show (8 : Nat) / 8 = 1 from rfl,
      show (8 : Nat) % 8 = 0 from rfl, eq_self_iff_true, and_self, if_true,
      varintDecode_encode seqNo, decodeSnapshotFields_nil]
  · have henc : encodeSnapshotProto seqNo state
        = 8 :: (varintEncode seqNo
            ++ (18 :: (varintEncode state.length ++ state))) := by
      rw [encodeSnapshotProto, if_neg (by omega), if_neg hst]
      rfl
    rw [henc] at hfuel ⊢
    obtain ⟨f, rfl⟩ : ∃ f, fuel = f + 1 := by
      cases fuel with
      | zero => simp at hfuel
      | succ f => exact ⟨f, rfl⟩
    have hf : (18 :: (varintEncode state.length ++ state)).length ≤ f := by
      simp only [List.length_cons, List.length_append] at hfuel ⊢
      omega
    obtain ⟨f2, rfl⟩ : ∃ f2, f = f2 + 1 := by
      cases f with
      | zero => simp at hf
      | succ f2 => exact ⟨f2, rfl⟩
    have h8 : varintDecode
        (8 :: (varintEncode seqNo
          ++ (18 :: (varintEncode state.length ++ state))))
        = some (8, varintEncode seqNo
            ++ (18 :: (varintEncode state.length ++ state))) := by
      rw [varintDecode, if_pos (by omega)]
    have h18 : varintDecode (18 :: (varintEncode state.length ++ state))
        = some (18, varintEncode state.length ++ state) := by
      rw [varintDecode, if_pos (by omega)]
    simp only [decodeSnapshotFields, h8, show (8 : Nat) / 8 = 1 from rfl,
      show (8 : Nat) % 8 = 0 from rfl, eq_self_iff_true, and_self, if_true,
      varintDecode_encode seqNo, h18, show (18 : Nat) / 8 = 2 from rfl,
      show (18 : Nat) % 8 = 2 from rfl,
      show ¬((2 : Nat) = 1 ∧ (2 : Nat) = 0) by omega, if_false,
      varintDecode_encode state.length, if_pos (le_refl state.length),
      List.drop_length, List.take_length, decodeSnapshotFields_nil]

/-- The snapshot decoder inverts the snapshot encoder for any nonzero
sequence number. -/
theorem decodeSnapshotProto_encode (seqNo : Nat) (state : List Nat)
    (hseq : 1 ≤ seqNo) :
    decodeSnapshotProto (encodeSnapshotProto seqNo state)
      = some (seqNo, state) :=
  decodeSnapshotFields_encode seqNo state hseq _ (le_refl _)

/-- C8 (confirmed): for every id, sequence number `n ≥ 1` and state `s` whose
user codec round-trips, `NatsSnapshotStore::save` stores under the id exactly
the protobuf encoding of the envelope `{ seq_no = n (field 1), state =
to_bytes(s) (field 2) }`, and `NatsSnapshotStore::load` on the resulting
bucket returns `Some` of a snapshot with sequence number `n` and state `s`.
The bucket returning the last value put for the id holds by construction of
`kvPut`. -/
theorem nats_snapshot_save_then_load {K S CErr : Type} [DecidableEq K]
    (toBytes : S → Except CErr (List Nat))
    (fromBytes : List Nat → Except CErr S) (kv : KvBucket K) (id : K)
    (n : Nat) (s : S) (bytes : List Nat) (hn : 1 ≤ n)
    (htb : toBytes s = .ok bytes) (hfb : fromBytes bytes = .ok s) :
    NatsSnapshotStore.save toBytes kv id n s
      = .ok (kvPut kv id (encodeSnapshotProto n bytes))
    ∧ kvPut kv id (encodeSnapshotProto n bytes) id
      = some (encodeSnapshotProto n bytes)
    ∧ NatsSnapshotStore.load fromBytes
        (kvPut kv id (encodeSnapshotProto n bytes)) id
      = .ok (some (n, s)) := by
  have hkv : kvPut kv id (encodeSnapshotProto n bytes) id
      = some (encodeSnapshotProto n bytes) := by
    rw [kvPut, if_pos rfl]
  refine ⟨?_, hkv, ?_⟩
  · rw [NatsSnapshotStore.save, htb]
  · simp only [NatsSnapshotStore.load, hkv,
      decodeSnapshotProto_encode n bytes hn, hfb,
      if_neg (show ¬ n = 0 by omega)]

/-- C8 (witness): saving sequence number 42 with state bytes `[5]` under
id 0 into an empty bucket stores `[8, 42, 18, 1, 5]` — tag 8 and varint 42
for field 1, then tag 18, length 1 and the byte for field 2 — and loading
yields that snapshot back. -/
theorem nats_snapshot_save_then_load_witness :
    NatsSnapshotStore.save
        (fun v : Nat => (Except.ok [v] : Except Unit (List Nat)))
        (fun _ : Nat => none) 0 42 5
      = .ok (kvPut (fun _ : Nat => none) 0 (encodeSnapshotProto 42 [5]))
    ∧ kvPut (fun _ : Nat => none) 0 (encodeSnapshotProto 42 [5]) 0
      = some [8, 42, 18, 1, 5]
    ∧ NatsSnapshotStore.load
        (fun b => (Except.ok (b.headD 0) : Except Unit Nat))
        (kvPut (fun _ : Nat => none) 0 (encodeSnapshotProto 42 [5])) 0
      = .ok (some (42, 5)) := by
  have h := nats_snapshot_save_then_load
    (fun v : Nat => (Except.ok [v] : Except Unit (List Nat)))
    (fun b => (Except.ok (b.headD 0) : Except Unit Nat))
    (fun _ : Nat => none) 0 42 5 [5] (by decide) rfl rfl
  exact ⟨h.1, by rw [h.2.1]; rfl, h.2.2⟩

end Eventsourced
